import Mathlib

/-!
# Tp1-SO1: the sampling entry point `main` (src/main.c) and the string builder
of the vendored metrics library (prom_string_builder.c)

`main` is embedded as a function from its inputs (the argument vector, the way
the call to `init_metrics` ends, the value returned by `pthread_create`) and a
number of observed loop iterations to the sequence of calls it has made and
the way the observation ends.  The calls of `main.c` that are not defined in
that file (`init_metrics`, `set_total_memory_gauge`, the `update_*` family,
`sleep`, `pthread_create`, `fprintf`) are events of the trace; the calls to
`set_total_memory_gauge`, `update_*`, `sleep` and `fprintf` are taken to
return.

The string builder is embedded as functions on the structure and on the heap
block its `str` field points to; its conventions are given where it starts.
-/

namespace Tp1

/-! ## Constants -/

/-- Value of `SLEEP_TIME` (main.c line 14, expose_metrics.h line 28). -/
def SLEEP_TIME : Nat := 1

/-- Value of `EXIT_SUCCESS` from stdlib.h. -/
def EXIT_SUCCESS : Int := 0

/-- Value of `EXIT_FAILURE` from stdlib.h. -/
def EXIT_FAILURE : Int := 1

/-! ## Operations -/

/-- The `update_*` functions declared in expose_metrics.h, lines 30-148, one
constructor per declaration, in the order of the header. -/
inductive UpdateOp
  | update_cpu_gauge
  | update_memory_gauge
  | update_free_memory_gauge
  | update_used_memory_gauge
  | update_disk_reads
  | update_loop_reads
  | update_disk_writes
  | update_loop_writes
  | update_time_reads
  | update_time_writes
  | update_IO_in_progress
  | update_time_in_IO
  | update_num_processes
  | update_received_bytes
  | update_sent_bytes
  | update_received_packets
  | update_sent_packets
  | update_received_errors
  | update_sent_errors
  | update_user_time
  | update_kernel_time
  | update_inactive_time
  | update_IO_wait
  deriving DecidableEq, Repr, Fintype

open UpdateOp

/-- Start routines that can be handed to `pthread_create`; expose_metrics.h
declares one, `expose_metrics` (line 155). -/
inductive Routine
  | expose_metrics
  deriving DecidableEq, Repr

/-- One call made by the sampling task.  Besides the calls that occur in
main.c the alphabet holds the other operations on the shared lock that the
task could make: `destroy_mutex` (expose_metrics.h line 171) and the two
pthread lock operations. -/
inductive Call
  | init_metrics
  | pthread_create (start_routine : Routine) (rc : Int)
  | fprintf_stderr (msg : String)
  | set_total_memory_gauge
  | update (u : UpdateOp)
  | sleep (seconds : Nat)
  | pthread_mutex_lock
  | pthread_mutex_unlock
  | destroy_mutex
  deriving DecidableEq, Repr

/-- The call creates a thread. -/
def Call.isThreadCreate : Call → Bool
  | .pthread_create _ _ => true
  | _ => false

/-- The call is one of the `update_*` operations. -/
def Call.isUpdate : Call → Bool
  | .update _ => true
  | _ => false

/-- The call writes a metric: `set_total_memory_gauge` or an `update_*`. -/
def Call.isMetricWrite : Call → Bool
  | .set_total_memory_gauge => true
  | .update _ => true
  | _ => false

/-- The call is a `sleep`. -/
def Call.isSleep : Call → Bool
  | .sleep _ => true
  | _ => false

/-- The call is a message written to stderr. -/
def Call.isDiagnostic : Call → Bool
  | .fprintf_stderr _ => true
  | _ => false

/-- The call acquires, releases or destroys the shared lock. -/
def Call.isLockOp : Call → Bool
  | .pthread_mutex_lock => true
  | .pthread_mutex_unlock => true
  | .destroy_mutex => true
  | _ => false

/-- The calls made so far, oldest first. -/
abbrev Trace := List Call

/-- Record one call at the end of the trace. -/
def call (c : Call) (tr : Trace) : Trace := tr ++ [c]

/-! ## Control -/

/-- How the call `init_metrics()` ends, seen from `main`: the function has no
return value, so either control comes back to `main` or the process has been
ended inside the call. -/
inductive InitOutcome
  | returned
  | terminated
  deriving DecidableEq, Repr

/-- How an observation of `main` ends. -/
inductive Status
  | returned (code : Int)
  | running
  | terminated
  deriving DecidableEq, Repr

/-- An observed execution: the calls made and the way the observation ends. -/
structure Run where
  trace : Trace
  status : Status
  deriving DecidableEq, Repr

/-- Body of the `while (true)` loop, main.c lines 40-64. -/
def loopBody (tr : Trace) : Trace :=
  let tr := call (.update update_cpu_gauge) tr
  let tr := call (.update update_memory_gauge) tr
  let tr := call (.update update_free_memory_gauge) tr
  let tr := call (.update update_used_memory_gauge) tr
  let tr := call (.update update_disk_reads) tr
  let tr := call (.update update_loop_reads) tr
  let tr := call (.update update_disk_writes) tr
  let tr := call (.update update_loop_writes) tr
  let tr := call (.update update_time_reads) tr
  let tr := call (.update update_time_writes) tr
  let tr := call (.update update_IO_in_progress) tr
  let tr := call (.update update_time_in_IO) tr
  let tr := call (.update update_num_processes) tr
  let tr := call (.update update_received_bytes) tr
  let tr := call (.update update_sent_bytes) tr
  let tr := call (.update update_received_packets) tr
  let tr := call (.update update_sent_packets) tr
  let tr := call (.update update_received_errors) tr
  let tr := call (.update update_sent_errors) tr
  let tr := call (.update update_user_time) tr
  let tr := call (.update update_kernel_time) tr
  let tr := call (.update update_inactive_time) tr
  let tr := call (.update update_IO_wait) tr
  call (.sleep SLEEP_TIME) tr

/-- The loop `while (true) { ... }` of main.c lines 38-65 followed by the
`return EXIT_SUCCESS` of line 67, observed for `fuel` iterations: the guard is
the literal `true`, and leaving the loop is the only way to line 67. -/
def whileTrue : Nat → Trace → Run
  | 0, tr => { trace := tr, status := .running }
  | fuel + 1, tr =>
    if true then whileTrue fuel (loopBody tr)
    else { trace := tr, status := .returned EXIT_SUCCESS }

/-- The function `main` of main.c (lines 23-68).  `init` is the way the call
`init_metrics()` ends, `rc` the value returned by `pthread_create`, `fuel` the
number of loop iterations observed. -/
def main (_argc : Int) (_argv : List String) (init : InitOutcome) (rc : Int)
    (fuel : Nat) : Run :=
  let tr := call .init_metrics []
  match init with
  | .terminated => { trace := tr, status := .terminated }
  | .returned =>
    let tr := call (.pthread_create .expose_metrics rc) tr
    if rc ≠ 0 then
      let tr := call (.fprintf_stderr "Error al crear el hilo del servidor HTTP\n") tr
      { trace := tr, status := .returned EXIT_FAILURE }
    else
      let tr := call .set_total_memory_gauge tr
      whileTrue fuel tr

/-- The calls made during the `n`-th iteration of the loop (the first one is
`n = 1`): what the trace observed through `n` iterations adds to the trace
observed through `n - 1` iterations. -/
def nthIteration (argc : Int) (argv : List String) (init : InitOutcome) (rc : Int)
    (n : Nat) : Trace :=
  (main argc argv init rc n).trace.drop (main argc argv init rc (n - 1)).trace.length

/-- Modelled from the spec: the body of `init_metrics`, which is declared in
expose_metrics.h (line 161, return type `void`) and defined in a file that is
not among the sources.  The spec (section 7) makes a registration failure at
startup fatal, "process must not proceed"; `init_metrics` hands nothing back
to `main`, so a fatal failure ends the process inside the call.
`registroMetricas` is the result of the check declared at line 166 (`true`
when registration went through). -/
def init_metrics (registroMetricas : Bool) : InitOutcome :=
  if registroMetricas then .returned else .terminated

/-! ## The string builder (lib/prometheus-client-c/prom/src/prom_string_builder.c)

The functions are embedded on the structure `self` points to, for a `self`
that is not NULL (the branches `if (self == NULL) return 1` and the
`PROM_ASSERT(self != NULL)` lines are outside the model).  A heap block is the
list of its bytes, a byte that has not been written since the block was
allocated being `none`.  `prom_malloc` and `prom_realloc` are taken to
succeed, and `size_t` values are natural numbers: the arithmetic of the module
is modelled without wrap-around.  A write outside a block and a loop that
does not end are faults. -/

/-- Value of `PROM_STRING_BUILDER_INIT_SIZE` (line 28). -/
def PROM_STRING_BUILDER_INIT_SIZE : Nat := 32

/-- A byte of a heap block; `none` is a byte whose value is indeterminate. -/
abbrev Cell := Option Nat

/-- A heap block: its bytes, in order. -/
abbrev Block := List Cell

/-- The structure `struct prom_string_builder` (lines 33-39); `str` is the
block the field points to (the empty block for NULL). -/
structure prom_string_builder where
  str : Block
  allocated : Nat
  len : Nat
  init_size : Nat
  deriving DecidableEq, Repr

/-- What can go wrong below the level of return codes. -/
inductive Fault
  | out_of_bounds
  | diverges
  deriving DecidableEq, Repr

/-- Result of a call: a fault, or the value returned together with the
structure after the call. -/
inductive Outcome (α : Type)
  | ok (value : α)
  | fault (f : Fault)
  deriving DecidableEq, Repr

/-- Sequencing of calls: a fault ends the computation. -/
def Outcome.bind {α β : Type} (x : Outcome α) (f : α → Outcome β) : Outcome β :=
  match x with
  | .ok a => f a
  | .fault e => .fault e

/-- A fresh block of `size` bytes, `prom_malloc(size)`. -/
def prom_malloc (size : Nat) : Block := List.replicate size none

/-- The block `prom_realloc(p, size)`: the bytes of `p` up to the smaller of
the two sizes, the rest indeterminate. -/
def prom_realloc (p : Block) (size : Nat) : Block :=
  p.take size ++ List.replicate (size - p.length) none

/-- The assignment `p[i] = v`. -/
def store (p : Block) (i : Nat) (v : Nat) : Outcome Block :=
  if i < p.length then .ok (p.set i (some v)) else .fault .out_of_bounds

/-- The call `memcpy(dst + off, src, n)` where `src` lists the `n` bytes
copied. -/
def memcpy (dst : Block) (off : Nat) (src : List Nat) : Outcome Block :=
  if off + src.length ≤ dst.length then
    .ok (dst.take off ++ src.map some ++ dst.drop (off + src.length))
  else .fault .out_of_bounds

/-- The value of `strlen(str)` for an argument `str` whose bytes are `s`
followed by a terminating NUL: the number of bytes before the first NUL. -/
def strlen (s : List Nat) : Nat := (s.takeWhile (fun c => c ≠ 0)).length

/-- The value of `strlen` on a heap block: the index of the first NUL byte;
`none` when the scan meets an indeterminate byte or the end of the block. -/
def Block.strlen : Block → Option Nat
  | [] => none
  | none :: _ => none
  | some 0 :: _ => some 0
  | some (_ + 1) :: rest => (Block.strlen rest).map (fun n => n + 1)

/-- The loop `while (self->allocated < self->len + add_len + 1)
self->allocated <<= 1;` (lines 94-95), `need` being `len + add_len + 1`: the
final value of `allocated`, or `none` when the loop does not end (`allocated`
is 0, and stays 0 under the shift). -/
def growAllocated (allocated need : Nat) : Option Nat :=
  if allocated < need then
    if allocated = 0 then none
    else growAllocated (allocated <<< 1) need
  else some allocated
termination_by need - allocated
decreasing_by
  simp only [Nat.shiftLeft_eq]
  omega

/-- The function `prom_string_builder_init` (lines 57-67). -/
def prom_string_builder_init (self : prom_string_builder) :
    Outcome (Int × prom_string_builder) :=
  let self := { self with str := prom_malloc self.init_size }
  (store self.str 0 0).bind fun str =>
  let self := { self with str := str }
  let self := { self with allocated := self.init_size }
  let self := { self with len := 0 }
  .ok (0, self)

/-- The function `prom_string_builder_new` (lines 41-55); the result is
`none` for NULL.  The fields of the fresh structure other than `init_size`
are set by `prom_string_builder_init` before they are read. -/
def prom_string_builder_new : Outcome (Option prom_string_builder) :=
  let self : prom_string_builder :=
    { str := [], allocated := 0, len := 0, init_size := PROM_STRING_BUILDER_INIT_SIZE }
  (prom_string_builder_init self).bind fun (r, self) =>
  if r ≠ 0 then .ok none else .ok (some self)

/-- The function `prom_string_builder_ensure_space` (lines 87-98). -/
def prom_string_builder_ensure_space (self : prom_string_builder) (add_len : Nat) :
    Outcome (Int × prom_string_builder) :=
  if add_len = 0 ∨ self.allocated ≥ self.len + add_len + 1 then .ok (0, self)
  else
    match growAllocated self.allocated (self.len + add_len + 1) with
    | none => .fault .diverges
    | some allocated =>
      let self := { self with allocated := allocated }
      let self := { self with str := prom_realloc self.str self.allocated }
      .ok (0, self)

/-- The function `prom_string_builder_add_str` (lines 100-119).  The argument
is `none` for NULL, and otherwise the bytes found at `str`, a terminating NUL
following them. -/
def prom_string_builder_add_str (self : prom_string_builder) (str : Option (List Nat)) :
    Outcome (Int × prom_string_builder) :=
  match str with
  | none => .ok (0, self)
  | some s =>
    if s.headD 0 = 0 then .ok (0, self)
    else
      let len := strlen s
      (prom_string_builder_ensure_space self len).bind fun (r, self) =>
      if r ≠ 0 then .ok (r, self)
      else
        (memcpy self.str self.len (s.take len)).bind fun buf =>
        let self := { self with str := buf }
        let self := { self with len := self.len + len }
        (store self.str self.len 0).bind fun buf =>
        .ok (0, { self with str := buf })

/-- The function `prom_string_builder_add_char` (lines 121-136). -/
def prom_string_builder_add_char (self : prom_string_builder) (c : Nat) :
    Outcome (Int × prom_string_builder) :=
  (prom_string_builder_ensure_space self 1).bind fun (r, self) =>
  if r ≠ 0 then .ok (r, self)
  else
    (store self.str self.len c).bind fun buf =>
    let self := { self with str := buf }
    let self := { self with len := self.len + 1 }
    (store self.str self.len 0).bind fun buf =>
    .ok (0, { self with str := buf })

/-- The function `prom_string_builder_truncate` (lines 138-149). -/
def prom_string_builder_truncate (self : prom_string_builder) (len : Nat) :
    Outcome (Int × prom_string_builder) :=
  if len ≥ self.len then .ok (0, self)
  else
    let self := { self with len := len }
    (store self.str self.len 0).bind fun buf =>
    .ok (0, { self with str := buf })

/-- The function `prom_string_builder_clear` (lines 151-157): the block is
freed, `str` set to NULL, and the structure initialised again. -/
def prom_string_builder_clear (self : prom_string_builder) :
    Outcome (Int × prom_string_builder) :=
  let self := { self with str := [] }
  prom_string_builder_init self

/-- The function `prom_string_builder_len` (lines 159-163). -/
def prom_string_builder_len (self : prom_string_builder) : Nat := self.len

/-- The function `prom_string_builder_str` (lines 174-178). -/
def prom_string_builder_str (self : prom_string_builder) : Block := self.str

/-- One call on a builder: `add_str`, `add_char`, `truncate` or `clear`, with
its argument. -/
inductive BuilderOp
  | add_str (str : Option (List Nat))
  | add_char (c : Nat)
  | truncate (len : Nat)
  | clear
  deriving DecidableEq, Repr

/-- Make one call. -/
def BuilderOp.apply (op : BuilderOp) (self : prom_string_builder) :
    Outcome (Int × prom_string_builder) :=
  match op with
  | .add_str str => prom_string_builder_add_str self str
  | .add_char c => prom_string_builder_add_char self c
  | .truncate len => prom_string_builder_truncate self len
  | .clear => prom_string_builder_clear self

/-- Make the calls of a list one after the other on the same builder. -/
def runOps : List BuilderOp → prom_string_builder → Outcome prom_string_builder
  | [], self => .ok self
  | op :: ops, self => (op.apply self).bind fun (_, self) => runOps ops self

/-- The calls of a list made on the builder returned by
`prom_string_builder_new`. -/
def fromNew (ops : List BuilderOp) : Outcome prom_string_builder :=
  prom_string_builder_new.bind fun self =>
  match self with
  | none => .fault .out_of_bounds
  | some self => runOps ops self

/-- The content of a builder: the first `len` bytes of `str`. -/
def content (self : prom_string_builder) : Block := self.str.take self.len

/-- Well-formed builder: `str` points to a block of `allocated` bytes,
`len + 1 <= allocated`, and `str[len]` is NUL. -/
def WellFormed (self : prom_string_builder) : Prop :=
  self.str.length = self.allocated ∧ self.len + 1 ≤ self.allocated ∧
    self.str[self.len]? = some (some 0)

instance (self : prom_string_builder) : Decidable (WellFormed self) := by
  unfold WellFormed
  infer_instance

/-! ## Shape of the trace -/

theorem loopBody_append (tr : Trace) : loopBody tr = tr ++ loopBody [] := by
  simp [loopBody, call]

theorem loopBody_nil :
    loopBody [] =
      [.update update_cpu_gauge, .update update_memory_gauge,
       .update update_free_memory_gauge, .update update_used_memory_gauge,
       .update update_disk_reads, .update update_loop_reads,
       .update update_disk_writes, .update update_loop_writes,
       .update update_time_reads, .update update_time_writes,
       .update update_IO_in_progress, .update update_time_in_IO,
       .update update_num_processes, .update update_received_bytes,
       .update update_sent_bytes, .update update_received_packets,
       .update update_sent_packets, .update update_received_errors,
       .update update_sent_errors, .update update_user_time,
       .update update_kernel_time, .update update_inactive_time,
       .update update_IO_wait, .sleep SLEEP_TIME] := by
  rfl

theorem whileTrue_eq (n : Nat) (tr : Trace) :
    whileTrue n tr =
      { trace := tr ++ (List.replicate n (loopBody [])).flatten, status := .running } := by
  induction n generalizing tr with
  | zero => simp [whileTrue]
  | succ k ih =>
    rw [whileTrue, if_pos rfl, ih, loopBody_append tr]
    simp [List.replicate_succ]

theorem main_terminated (argc : Int) (argv : List String) (rc : Int) (fuel : Nat) :
    main argc argv .terminated rc fuel =
      { trace := [.init_metrics], status := .terminated } := by
  simp [main, call]

theorem main_failed (argc : Int) (argv : List String) (rc : Int) (fuel : Nat)
    (h : rc ≠ 0) :
    main argc argv .returned rc fuel =
      { trace := [.init_metrics, .pthread_create .expose_metrics rc,
                  .fprintf_stderr "Error al crear el hilo del servidor HTTP\n"],
        status := .returned EXIT_FAILURE } := by
  simp [main, call, h]

theorem main_started (argc : Int) (argv : List String) (fuel : Nat) :
    main argc argv .returned 0 fuel =
      { trace := [.init_metrics, .pthread_create .expose_metrics 0,
                  .set_total_memory_gauge] ++ (List.replicate fuel (loopBody [])).flatten,
        status := .running } := by
  simp [main, call, whileTrue_eq]

theorem mem_iterations {c : Call} {n : Nat}
    (h : c ∈ (List.replicate n (loopBody [])).flatten) : c ∈ loopBody [] := by
  rw [List.mem_flatten] at h
  obtain ⟨l, hl, hc⟩ := h
  rw [List.eq_of_mem_replicate hl] at hc
  exact hc

theorem length_iterations (n : Nat) :
    ((List.replicate n (loopBody [])).flatten).length = 24 * n := by
  induction n with
  | zero => simp
  | succ k ih =>
    rw [List.replicate_succ, List.flatten_cons, List.length_append, ih, loopBody_nil]
    simp
    omega

theorem nthIteration_started (argc : Int) (argv : List String) (n : Nat) (hn : 1 ≤ n) :
    nthIteration argc argv .returned 0 n = loopBody [] := by
  obtain ⟨k, rfl⟩ : ∃ k, n = k + 1 := ⟨n - 1, by omega⟩
  simp only [nthIteration, main_started, Nat.add_sub_cancel]
  rw [List.replicate_succ', List.flatten_append, ← List.append_assoc]
  simp

theorem nthIteration_zero (argc : Int) (argv : List String) (init : InitOutcome)
    (rc : Int) : nthIteration argc argv init rc 0 = [] := by
  simp [nthIteration]

/-- Every observed trace starts with the call to `init_metrics`, which does
not occur again. -/
theorem trace_shape (argc : Int) (argv : List String) (init : InitOutcome) (rc : Int)
    (fuel : Nat) :
    ∃ rest, (main argc argv init rc fuel).trace = .init_metrics :: rest ∧
      Call.init_metrics ∉ rest := by
  cases init with
  | terminated => exact ⟨[], by simp [main_terminated]⟩
  | returned =>
    by_cases h : rc = 0
    · subst h
      refine ⟨[.pthread_create .expose_metrics 0, .set_total_memory_gauge] ++
          (List.replicate fuel (loopBody [])).flatten, by rw [main_started]; rfl, ?_⟩
      intro hmem
      rw [List.mem_append] at hmem
      rcases hmem with h | h
      · simp at h
      · have := mem_iterations h
        rw [loopBody_nil] at this
        simp at this
    · exact ⟨_, by rw [main_failed _ _ _ _ h], by simp⟩

/-- A call other than `init_metrics` that occurs in a trace starting with
`init_metrics` has that call among the calls made before it. -/
theorem init_before {tr rest a b : Trace} {c : Call}
    (htr : tr = .init_metrics :: rest) (hp : (a ++ c :: b) <+: tr)
    (hc : c ≠ .init_metrics) : Call.init_metrics ∈ a := by
  subst htr
  cases a with
  | nil =>
    rw [List.nil_append, List.cons_prefix_cons] at hp
    exact absurd hp.1 hc
  | cons x a =>
    rw [List.cons_append, List.cons_prefix_cons] at hp
    rw [hp.1]
    exact List.mem_cons_self _ _

/-- Every call of an observed trace is one of the four startup calls of
main.c or a call of the loop body. -/
theorem mem_trace {argc : Int} {argv : List String} {init : InitOutcome} {rc : Int}
    {fuel : Nat} {c : Call} (h : c ∈ (main argc argv init rc fuel).trace) :
    c = .init_metrics ∨ c = .pthread_create .expose_metrics rc ∨
      c = .fprintf_stderr "Error al crear el hilo del servidor HTTP\n" ∨
      c = .set_total_memory_gauge ∨ c ∈ loopBody [] := by
  cases init with
  | terminated =>
    rw [main_terminated, List.mem_singleton] at h
    exact Or.inl h
  | returned =>
    by_cases hrc : rc = 0
    · subst hrc
      rw [main_started, List.mem_append] at h
      rcases h with h | h
      · simp only [List.mem_cons, List.mem_singleton, List.not_mem_nil, or_false] at h
        rcases h with h | h | h
        · exact Or.inl h
        · exact Or.inr (Or.inl h)
        · exact Or.inr (Or.inr (Or.inr (Or.inl h)))
      · exact Or.inr (Or.inr (Or.inr (Or.inr (mem_iterations h))))
    · rw [main_failed _ _ _ _ hrc] at h
      simp only [List.mem_cons, List.mem_singleton, List.not_mem_nil, or_false] at h
      rcases h with h | h | h
      · exact Or.inl h
      · exact Or.inr (Or.inl h)
      · exact Or.inr (Or.inr (Or.inl h))

/-- One iteration is 23 `update_*` calls followed by `sleep(SLEEP_TIME)`. -/
theorem loopBody_split :
    ∃ ups : Trace, loopBody [] = ups ++ [.sleep SLEEP_TIME] ∧ ups.length = 23 ∧
      ∀ c ∈ ups, c.isUpdate = true := by
  refine ⟨(loopBody []).dropLast, by rw [loopBody_nil]; rfl, by rw [loopBody_nil]; rfl, ?_⟩
  rw [loopBody_nil]
  decide

/-- The only `sleep` of the loop body is `sleep(1)`. -/
theorem loopBody_sleep : ∀ c ∈ loopBody [], c.isSleep = true → c = .sleep 1 := by
  rw [loopBody_nil]
  decide

/-- No call of the loop body is `set_total_memory_gauge` or an operation on
the shared lock. -/
theorem loopBody_calls :
    ∀ c ∈ loopBody [], c ≠ .set_total_memory_gauge ∧ c.isLockOp = false := by
  rw [loopBody_nil]
  decide

/-! ## Startup -/

/-- C1: in every execution of `main` in which creating the exposition-server
thread fails (`pthread_create` returns a non-zero value) `main` returns
`EXIT_FAILURE`, which is not zero, whatever the number of iterations one is
ready to observe; no call made is a metric write (`set_total_memory_gauge`,
`update_*`) or a `sleep`; the calls made are `init_metrics`, the failed
`pthread_create` and the message written to stderr about that failure, so
that, the message apart, the only operations before the return are
`init_metrics` and the failed thread creation. -/
theorem main_thread_creation_failure (argc : Int) (argv : List String) (rc : Int)
    (fuel : Nat) (h : rc ≠ 0) :
    (main argc argv .returned rc fuel).status = .returned EXIT_FAILURE ∧
    EXIT_FAILURE ≠ 0 ∧
    (∀ c ∈ (main argc argv .returned rc fuel).trace,
      c.isMetricWrite = false ∧ c.isSleep = false) ∧
    (main argc argv .returned rc fuel).trace =
      [.init_metrics, .pthread_create .expose_metrics rc,
       .fprintf_stderr "Error al crear el hilo del servidor HTTP\n"] ∧
    (main argc argv .returned rc fuel).trace.filter (fun c => !c.isDiagnostic) =
      [.init_metrics, .pthread_create .expose_metrics rc] := by
  rw [main_failed argc argv rc fuel h]
  refine ⟨rfl, by decide, ?_, rfl, rfl⟩
  intro c hc
  simp only [List.mem_cons, List.mem_singleton, List.not_mem_nil, or_false] at hc
  rcases hc with rfl | rfl | rfl <;> exact ⟨rfl, rfl⟩

/-- Witness of C1: `pthread_create` returning 11 (EAGAIN), observed for five
iterations. -/
theorem main_thread_creation_failure_witness :
    (11 : Int) ≠ 0 ∧
    (main 1 ["tp1"] .returned 11 5).status = .returned EXIT_FAILURE ∧
    (main 1 ["tp1"] .returned 11 5).trace.length = 3 :=
  ⟨by decide, (main_thread_creation_failure 1 ["tp1"] 11 5 (by decide)).1,
    by rw [(main_thread_creation_failure 1 ["tp1"] 11 5 (by decide)).2.2.2.1]; rfl⟩

/-- C2: in every execution of `main` (whatever the arguments, the way
`init_metrics` ends, the result of `pthread_create` and the length of the
observation) `init_metrics` is called exactly once, and every thread creation
and every metric write (`set_total_memory_gauge` or `update_*`) found in any
initial segment of the trace has the call to `init_metrics` before it. -/
theorem init_metrics_once_and_first (argc : Int) (argv : List String)
    (init : InitOutcome) (rc : Int) (fuel : Nat) :
    (main argc argv init rc fuel).trace.count .init_metrics = 1 ∧
    (main argc argv init rc fuel).trace.head? = some .init_metrics ∧
    ∀ (a b : Trace) (c : Call),
      (a ++ c :: b) <+: (main argc argv init rc fuel).trace →
      (c.isThreadCreate = true ∨ c.isMetricWrite = true) →
      Call.init_metrics ∈ a := by
  obtain ⟨rest, htr, hrest⟩ := trace_shape argc argv init rc fuel
  refine ⟨?_, by rw [htr]; rfl, ?_⟩
  · rw [htr, List.count_cons_self, List.count_eq_zero_of_not_mem hrest]
  · intro a b c hp hc
    refine init_before htr hp ?_
    rintro rfl
    rcases hc with hc | hc <;> cases hc

/-- C4: with `init_metrics` as the spec describes it (a registration failure
is fatal), when `registroMetricas` reports failure the process does not
proceed: the observation ends inside `init_metrics`, the only call made is
`init_metrics`, and `main` neither creates the exposition-server thread nor
makes any call of the sampling loop (`update_*`, `sleep`), whatever
`pthread_create` would have returned and however long one observes. -/
theorem registration_failure_stops_startup (argc : Int) (argv : List String)
    (rc : Int) (fuel : Nat) :
    (main argc argv (init_metrics false) rc fuel).status = .terminated ∧
    (main argc argv (init_metrics false) rc fuel).trace = [.init_metrics] ∧
    (∀ c ∈ (main argc argv (init_metrics false) rc fuel).trace,
      c.isThreadCreate = false ∧ c.isMetricWrite = false ∧ c.isSleep = false) ∧
    (∀ n, nthIteration argc argv (init_metrics false) rc n = []) := by
  have hinit : init_metrics false = .terminated := rfl
  rw [hinit, main_terminated]
  refine ⟨rfl, rfl, ?_, ?_⟩
  · intro c hc
    rw [List.mem_singleton] at hc
    subst hc
    exact ⟨rfl, rfl, rfl⟩
  · intro n
    simp [nthIteration, main_terminated]

/-! ## The sampling loop -/

/-- C5: when the thread has been created, for every `n >= 1` the `n`-th
iteration of the loop of `main` invokes each of the 23 `update_*` operations
declared in expose_metrics.h exactly once, none is left out, and the order is
the same in every iteration (the order of lines 40-62 of main.c, from
`update_cpu_gauge` to `update_IO_wait`). -/
theorem every_tick_covers_all_updates (argc : Int) (argv : List String) (n : Nat)
    (hn : 1 ≤ n) :
    (∀ u : UpdateOp, (nthIteration argc argv .returned 0 n).count (.update u) = 1) ∧
    Fintype.card UpdateOp = 23 ∧
    ((nthIteration argc argv .returned 0 n).filter Call.isUpdate).length = 23 ∧
    nthIteration argc argv .returned 0 n = nthIteration argc argv .returned 0 1 ∧
    (nthIteration argc argv .returned 0 n).filter Call.isUpdate =
      [.update update_cpu_gauge, .update update_memory_gauge,
       .update update_free_memory_gauge, .update update_used_memory_gauge,
       .update update_disk_reads, .update update_loop_reads,
       .update update_disk_writes, .update update_loop_writes,
       .update update_time_reads, .update update_time_writes,
       .update update_IO_in_progress, .update update_time_in_IO,
       .update update_num_processes, .update update_received_bytes,
       .update update_sent_bytes, .update update_received_packets,
       .update update_sent_packets, .update update_received_errors,
       .update update_sent_errors, .update update_user_time,
       .update update_kernel_time, .update update_inactive_time,
       .update update_IO_wait] := by
  rw [nthIteration_started argc argv n hn, nthIteration_started argc argv 1 (le_refl 1),
    loopBody_nil]
  refine ⟨?_, by decide, rfl, rfl, rfl⟩
  intro u
  cases u <;> rfl

/-- Witness of C5: the third iteration. -/
theorem every_tick_covers_all_updates_witness :
    1 ≤ 3 ∧
    (nthIteration 1 ["tp1"] .returned 0 3).count (.update .update_IO_wait) = 1 ∧
    nthIteration 1 ["tp1"] .returned 0 3 = nthIteration 1 ["tp1"] .returned 0 1 :=
  ⟨by decide,
    (every_tick_covers_all_updates 1 ["tp1"] 3 (by decide)).1 .update_IO_wait,
    (every_tick_covers_all_updates 1 ["tp1"] 3 (by decide)).2.2.2.1⟩

/-- C6: the sampling interval is the constant `SLEEP_TIME = 1` and cannot be
set from outside: for all `argc` and `argv` every iteration of the loop ends
with a `sleep(SLEEP_TIME)` that comes after the 23 updates of the tick and is
the only `sleep` of the iteration, and two executions that differ only in
their argument vectors are the same (same calls, same status). -/
theorem sampling_interval_fixed (argc₁ argc₂ : Int) (argv₁ argv₂ : List String)
    (init : InitOutcome) (rc : Int) (fuel n : Nat) (hn : 1 ≤ n) :
    SLEEP_TIME = 1 ∧
    main argc₁ argv₁ init rc fuel = main argc₂ argv₂ init rc fuel ∧
    (nthIteration argc₁ argv₁ .returned 0 n).getLast? = some (.sleep 1) ∧
    (nthIteration argc₁ argv₁ .returned 0 n).filter Call.isSleep = [.sleep SLEEP_TIME] ∧
    (∃ ups : Trace, nthIteration argc₁ argv₁ .returned 0 n = ups ++ [.sleep SLEEP_TIME] ∧
      ups.length = 23 ∧ ∀ c ∈ ups, c.isUpdate = true) ∧
    (∀ c ∈ (main argc₁ argv₁ init rc fuel).trace, c.isSleep = true → c = .sleep 1) := by
  refine ⟨rfl, rfl, ?_, ?_, ?_, ?_⟩
  · rw [nthIteration_started argc₁ argv₁ n hn, loopBody_nil]
    rfl
  · rw [nthIteration_started argc₁ argv₁ n hn, loopBody_nil]
    rfl
  · rw [nthIteration_started argc₁ argv₁ n hn]
    exact loopBody_split
  · intro c hc hs
    rcases mem_trace hc with h | h | h | h | h
    · subst h; cases hs
    · subst h; cases hs
    · subst h; cases hs
    · subst h; cases hs
    · exact loopBody_sleep c h hs

/-- Witness of C6: two different argument vectors, second iteration. -/
theorem sampling_interval_fixed_witness :
    1 ≤ 2 ∧
    main 1 ["tp1"] .returned 0 4 = main 3 ["tp1", "--interval", "60"] .returned 0 4 ∧
    (nthIteration 1 ["tp1"] .returned 0 2).getLast? = some (.sleep 1) :=
  ⟨by decide,
    (sampling_interval_fixed 1 3 ["tp1"] ["tp1", "--interval", "60"] .returned 0 4 2
      (by decide)).2.1,
    (sampling_interval_fixed 1 3 ["tp1"] ["tp1", "--interval", "60"] .returned 0 4 2
      (by decide)).2.2.1⟩

/-- C7: in every execution of `main` in which the thread is created,
`set_total_memory_gauge` is called exactly once; it is the third call, made
right after `init_metrics` and `pthread_create` and before the first
iteration; the rest of the trace is the iterations one after the other, and
no iteration calls it. -/
theorem total_memory_set_once (argc : Int) (argv : List String) (fuel : Nat) :
    (main argc argv .returned 0 fuel).trace.count .set_total_memory_gauge = 1 ∧
    (main argc argv .returned 0 fuel).trace =
      [.init_metrics, .pthread_create .expose_metrics 0, .set_total_memory_gauge] ++
        ((List.range fuel).map
          (fun k => nthIteration argc argv .returned 0 (k + 1))).flatten ∧
    (∀ n, Call.set_total_memory_gauge ∉ nthIteration argc argv .returned 0 n) := by
  have hiter : ∀ n, Call.set_total_memory_gauge ∉ nthIteration argc argv .returned 0 n := by
    intro n hmem
    rcases Nat.eq_zero_or_pos n with h0 | hpos
    · subst h0
      rw [nthIteration_zero] at hmem
      cases hmem
    · rw [nthIteration_started argc argv n hpos] at hmem
      exact (loopBody_calls _ hmem).1 rfl
  have hmap : (List.range fuel).map (fun k => nthIteration argc argv .returned 0 (k + 1)) =
      List.replicate fuel (loopBody []) := by
    rw [List.eq_replicate_iff]
    refine ⟨by simp, ?_⟩
    intro l hl
    rw [List.mem_map] at hl
    obtain ⟨k, _, rfl⟩ := hl
    exact nthIteration_started argc argv (k + 1) (Nat.succ_le_succ (Nat.zero_le k))
  refine ⟨?_, by rw [hmap, main_started], hiter⟩
  rw [main_started, List.count_append]
  have hzero : ((List.replicate fuel (loopBody [])).flatten).count
      Call.set_total_memory_gauge = 0 := by
    apply List.count_eq_zero_of_not_mem
    intro hmem
    exact (loopBody_calls _ (mem_iterations hmem)).1 rfl
  rw [hzero]
  rfl

/-- C8, as amended: the loop of `main` makes no lock operation of its own.
No call of any execution of `main` acquires, releases or destroys the shared
lock, and for every `n >= 1` the `n`-th iteration is the 23 `update_*` calls
followed by `sleep(SLEEP_TIME)`, the `sleep` coming after the last update of
the tick; whatever locking protects a metric write is left to the `update_*`
operations. -/
theorem main_loop_takes_no_lock (argc : Int) (argv : List String)
    (init : InitOutcome) (rc : Int) (fuel n : Nat) (hn : 1 ≤ n) :
    (∀ c ∈ (main argc argv init rc fuel).trace, c.isLockOp = false) ∧
    (∀ c ∈ nthIteration argc argv .returned 0 n, c.isLockOp = false) ∧
    (nthIteration argc argv .returned 0 n).head? = some (.update .update_cpu_gauge) ∧
    (∃ ups : Trace, nthIteration argc argv .returned 0 n = ups ++ [.sleep SLEEP_TIME] ∧
      ups.length = 23 ∧ ∀ c ∈ ups, c.isUpdate = true) := by
  refine ⟨?_, ?_, ?_, ?_⟩
  · intro c hc
    rcases mem_trace hc with h | h | h | h | h
    · subst h; rfl
    · subst h; rfl
    · subst h; rfl
    · subst h; rfl
    · exact (loopBody_calls c h).2
  · intro c hc
    rw [nthIteration_started argc argv n hn] at hc
    exact (loopBody_calls c hc).2
  · rw [nthIteration_started argc argv n hn, loopBody_nil]
    rfl
  · rw [nthIteration_started argc argv n hn]
    exact loopBody_split

/-- Witness of C8 as amended: second iteration of an execution observed for
two iterations. -/
theorem main_loop_takes_no_lock_witness :
    1 ≤ 2 ∧
    (∀ c ∈ (main 1 ["tp1"] .returned 0 2).trace, c.isLockOp = false) ∧
    (nthIteration 1 ["tp1"] .returned 0 2).head? = some (.update .update_cpu_gauge) :=
  ⟨by decide, (main_loop_takes_no_lock 1 ["tp1"] .returned 0 2 2 (by decide)).1,
    (main_loop_takes_no_lock 1 ["tp1"] .returned 0 2 2 (by decide)).2.2.1⟩

/-- C8 as stated fails: an execution observed through its first complete
iteration has made the 23 updates and slept, and has neither acquired nor
released the lock: no acquire precedes `update_cpu_gauge`, no release
follows `update_IO_wait`. -/
theorem lock_around_tick_counterexample :
    Call.update .update_cpu_gauge ∈ (main 1 ["tp1"] .returned 0 1).trace ∧
    Call.update .update_IO_wait ∈ (main 1 ["tp1"] .returned 0 1).trace ∧
    Call.sleep 1 ∈ (main 1 ["tp1"] .returned 0 1).trace ∧
    Call.pthread_mutex_lock ∉ (main 1 ["tp1"] .returned 0 1).trace ∧
    Call.pthread_mutex_unlock ∉ (main 1 ["tp1"] .returned 0 1).trace := by
  decide

/-- C9: `main` never returns `EXIT_SUCCESS`, in any execution; and when the
thread has been created the loop does not end: however many iterations are
observed `main` is still running, that many complete iterations have been
made (3 startup calls and 24 calls per iteration), and the next iteration is
started with `update_cpu_gauge`. -/
theorem exit_success_unreachable (argc : Int) (argv : List String)
    (init : InitOutcome) (rc : Int) (fuel : Nat) :
    (main argc argv init rc fuel).status ≠ .returned EXIT_SUCCESS ∧
    (main argc argv .returned 0 fuel).status = .running ∧
    (main argc argv .returned 0 fuel).trace.length = 3 + 24 * fuel ∧
    (nthIteration argc argv .returned 0 (fuel + 1)).head? =
      some (.update .update_cpu_gauge) := by
  refine ⟨?_, by rw [main_started], ?_, ?_⟩
  · cases init with
    | terminated =>
      rw [main_terminated]
      intro h
      cases h
    | returned =>
      by_cases hrc : rc = 0
      · subst hrc
        rw [main_started]
        intro h
        cases h
      · rw [main_failed _ _ _ _ hrc]
        intro h
        exact absurd (Status.returned.inj h) (by decide)
  · rw [main_started, List.length_append, length_iterations]
    rfl
  · rw [nthIteration_started argc argv (fuel + 1) (Nat.succ_le_succ (Nat.zero_le fuel)),
      loopBody_nil]
    rfl

/-- C10, as amended: `main` never calls `destroy_mutex`.  No execution holds
such a call, and when `main` returns, the exit code is `EXIT_FAILURE`, the
thread creation has failed, and the calls made are `init_metrics`, the failed
`pthread_create` and the message to stderr. -/
theorem main_never_destroys_mutex (argc : Int) (argv : List String)
    (init : InitOutcome) (rc : Int) (fuel : Nat) :
    (main argc argv init rc fuel).trace.count .destroy_mutex = 0 ∧
    ∀ code, (main argc argv init rc fuel).status = .returned code →
      code = EXIT_FAILURE ∧ rc ≠ 0 ∧
      (main argc argv init rc fuel).trace =
        [.init_metrics, .pthread_create .expose_metrics rc,
         .fprintf_stderr "Error al crear el hilo del servidor HTTP\n"] := by
  refine ⟨?_, ?_⟩
  · apply List.count_eq_zero_of_not_mem
    intro hmem
    rcases mem_trace hmem with h | h | h | h | h
    · cases h
    · cases h
    · cases h
    · cases h
    · have := (loopBody_calls _ h).2
      cases this
  · intro code hcode
    cases init with
    | terminated =>
      rw [main_terminated] at hcode
      cases hcode
    | returned =>
      by_cases hrc : rc = 0
      · subst hrc
        rw [main_started] at hcode
        cases hcode
      · rw [main_failed _ _ _ _ hrc] at hcode ⊢
        cases hcode
        exact ⟨rfl, hrc, rfl⟩

/-- C10 as stated fails: when `pthread_create` returns 11, `main` returns
`EXIT_FAILURE` and `destroy_mutex` has not been called. -/
theorem destroy_mutex_counterexample :
    (main 1 ["tp1"] .returned 11 0).status = .returned EXIT_FAILURE ∧
    (main 1 ["tp1"] .returned 11 0).trace.count .init_metrics = 1 ∧
    (main 1 ["tp1"] .returned 11 0).trace.count .destroy_mutex ≠ 1 := by
  decide

/-! ## String builder: memory and growth -/

@[simp]
theorem Outcome.bind_ok {α β : Type} (a : α) (f : α → Outcome β) :
    (Outcome.ok a).bind f = f a := rfl

@[simp]
theorem Outcome.bind_fault {α β : Type} (e : Fault) (f : α → Outcome β) :
    (Outcome.fault e : Outcome α).bind f = .fault e := rfl

/-- The loop is not entered when `allocated` is large enough already. -/
theorem growAllocated_of_le {a need : Nat} (h : need ≤ a) : growAllocated a need = some a := by
  rw [growAllocated, if_neg (by omega)]

/-- One turn of the loop. -/
theorem growAllocated_step {a need : Nat} (h : a < need) (ha : 0 < a) :
    growAllocated a need = growAllocated (a <<< 1) need := by
  rw [growAllocated, if_pos h, if_neg (by omega)]

/-- From a positive `allocated` the loop ends, with a value that is large
enough and not below the initial one. -/
theorem growAllocated_spec (a need : Nat) (ha : 0 < a) :
    ∃ a', growAllocated a need = some a' ∧ need ≤ a' ∧ a ≤ a' := by
  generalize hk : need - a = k
  induction k using Nat.strong_induction_on generalizing a with
  | _ k ih =>
    by_cases hlt : a < need
    · have hpos : 0 < a <<< 1 := by simp only [Nat.shiftLeft_eq]; omega
      obtain ⟨a', h1, h2, h3⟩ := ih (need - a <<< 1)
        (by simp only [Nat.shiftLeft_eq]; omega) (a <<< 1) hpos rfl
      refine ⟨a', by rw [growAllocated_step hlt ha, h1], h2, ?_⟩
      simp only [Nat.shiftLeft_eq] at h3
      omega
    · exact ⟨a, growAllocated_of_le (by omega), by omega, le_refl a⟩

/-- Growing for a smaller need first does not change the result of growing
for a larger one. -/
theorem growAllocated_twice (a t₁ t₂ a₁ : Nat) (ha : 0 < a) (ht : t₁ ≤ t₂)
    (h₁ : growAllocated a t₁ = some a₁) :
    growAllocated a₁ t₂ = growAllocated a t₂ := by
  generalize hk : t₁ - a = k
  induction k using Nat.strong_induction_on generalizing a with
  | _ k ih =>
    by_cases hlt : a < t₁
    · have hpos : 0 < a <<< 1 := by simp only [Nat.shiftLeft_eq]; omega
      rw [growAllocated_step hlt ha] at h₁
      rw [growAllocated_step (show a < t₂ by omega) ha]
      exact ih (t₁ - a <<< 1) (by simp only [Nat.shiftLeft_eq]; omega) (a <<< 1) hpos h₁ rfl
    · rw [growAllocated_of_le (by omega)] at h₁
      cases h₁
      rfl

theorem store_ok {p : Block} {i : Nat} (v : Nat) (h : i < p.length) :
    store p i v = .ok (p.set i (some v)) := by
  rw [store, if_pos h]

theorem memcpy_ok {dst : Block} {off : Nat} {src : List Nat}
    (h : off + src.length ≤ dst.length) :
    memcpy dst off src =
      .ok (dst.take off ++ src.map some ++ dst.drop (off + src.length)) := by
  rw [memcpy, if_pos h]

theorem take_set_same {α : Type} (l : List α) (n : Nat) (a : α) :
    (l.set n a).take n = l.take n := by
  rw [List.set_take, List.set_eq_of_length_le]
  rw [List.length_take]
  omega

/-- The bytes before the first NUL are an initial segment of the argument. -/
theorem take_strlen (s : List Nat) :
    s.take (strlen s) = s.takeWhile (fun c => c ≠ 0) := by
  unfold strlen
  induction s with
  | nil => rfl
  | cons x xs ih =>
    by_cases hx : x = 0
    · simp [List.takeWhile, hx]
    · simp only [List.takeWhile, hx, ne_eq, not_false_eq_true, decide_True, List.length_cons,
        List.take_succ_cons]
      rw [ih]

theorem strlen_pos {s : List Nat} (h : s.headD 0 ≠ 0) : 0 < strlen s := by
  unfold strlen
  cases s with
  | nil => simp at h
  | cons x xs =>
    simp only [List.headD_cons] at h
    simp [List.takeWhile, h]

theorem strlen_of_not_mem {s : List Nat} (h : 0 ∉ s) :
    s.takeWhile (fun c => c ≠ 0) = s ∧ strlen s = s.length := by
  have h1 : s.takeWhile (fun c => c ≠ 0) = s := by
    rw [List.takeWhile_eq_self_iff]
    intro x hx
    have : x ≠ 0 := fun h0 => h (h0 ▸ hx)
    simpa using this
  exact ⟨h1, by rw [strlen, h1]⟩

/-! ## String builder: the operations on a well-formed builder -/

/-- With a positive `init_size`, initialisation gives the empty string in a
fresh block of `init_size` bytes. -/
theorem init_eq (b : prom_string_builder) (h : 0 < b.init_size) :
    prom_string_builder_init b =
      .ok (0, { str := some 0 :: List.replicate (b.init_size - 1) none,
                allocated := b.init_size, len := 0, init_size := b.init_size }) := by
  obtain ⟨k, hk⟩ : ∃ k, b.init_size = k + 1 := ⟨b.init_size - 1, by omega⟩
  simp [prom_string_builder_init, prom_malloc, store, hk, List.replicate_succ]

/-- The block after `ensure_space`: the old bytes, followed by fresh ones up
to the new value of `allocated`. -/
theorem ensure_space_spec (b : prom_string_builder) (n : Nat)
    (hlen : b.str.length = b.allocated) (hpos : 0 < b.allocated) :
    ∃ a', prom_string_builder_ensure_space b n =
        .ok (0, { str := b.str ++ List.replicate (a' - b.allocated) none,
                  allocated := a', len := b.len, init_size := b.init_size }) ∧
      b.allocated ≤ a' ∧
      (n ≠ 0 → b.len + n + 1 ≤ a' ∧
        growAllocated b.allocated (b.len + n + 1) = some a') := by
  by_cases hc : n = 0 ∨ b.allocated ≥ b.len + n + 1
  · refine ⟨b.allocated, ?_, le_refl _, ?_⟩
    · rw [prom_string_builder_ensure_space, if_pos hc]
      simp
    · intro hn
      rcases hc with h0 | hge
      · exact absurd h0 hn
      · exact ⟨hge, growAllocated_of_le hge⟩
  · obtain ⟨a', hg, h1, h2⟩ := growAllocated_spec b.allocated (b.len + n + 1) hpos
    refine ⟨a', ?_, h2, fun _ => ⟨h1, hg⟩⟩
    rw [prom_string_builder_ensure_space, if_neg hc, hg]
    simp only [prom_realloc, hlen]
    rw [List.take_of_length_le (by omega)]

theorem spliced (buf : Block) (off : Nat) (chars : List Nat)
    (h : off + chars.length ≤ buf.length) :
    (buf.take off ++ chars.map some ++ buf.drop (off + chars.length)).length = buf.length ∧
    (buf.take off ++ chars.map some ++ buf.drop (off + chars.length)).take
        (off + chars.length) = buf.take off ++ chars.map some := by
  constructor
  · simp only [List.length_append, List.length_take, List.length_map, List.length_drop]
    omega
  · apply List.take_left'
    simp only [List.length_append, List.length_take, List.length_map]
    omega

theorem add_str_spec (b : prom_string_builder) (s : List Nat) (hwf : WellFormed b)
    (hs : s.headD 0 ≠ 0) :
    ∃ b', prom_string_builder_add_str b (some s) = .ok (0, b') ∧ WellFormed b' ∧
      b'.len = b.len + strlen s ∧
      content b' = content b ++ (s.takeWhile (fun c => c ≠ 0)).map some ∧
      growAllocated b.allocated (b.len + strlen s + 1) = some b'.allocated ∧
      b'.init_size = b.init_size := by
  obtain ⟨hlen, hle, _⟩ := hwf
  obtain ⟨a', he, hge, hn⟩ := ensure_space_spec b (strlen s) hlen (by omega)
  obtain ⟨hroom, hgrow⟩ := hn (by have := strlen_pos hs; omega)
  have hcl : (s.takeWhile (fun c => c ≠ 0)).length = strlen s := rfl
  have hbuf0 : (b.str ++ List.replicate (a' - b.allocated) (none : Cell)).length = a' := by
    rw [List.length_append, List.length_replicate, hlen]
    omega
  obtain ⟨hl1, ht1⟩ := spliced (b.str ++ List.replicate (a' - b.allocated) none) b.len
    (s.takeWhile (fun c => c ≠ 0)) (by rw [hbuf0, hcl]; omega)
  refine ⟨{ str := ((b.str ++ List.replicate (a' - b.allocated) none).take b.len ++
              (s.takeWhile (fun c => c ≠ 0)).map some ++
              (b.str ++ List.replicate (a' - b.allocated) none).drop
                (b.len + (s.takeWhile (fun c => c ≠ 0)).length)).set
              (b.len + strlen s) (some 0),
            allocated := a', len := b.len + strlen s, init_size := b.init_size },
    ?_, ⟨?_, ?_, ?_⟩, rfl, ?_, hgrow, rfl⟩
  · simp only [prom_string_builder_add_str]
    rw [if_neg hs, he]
    simp only [Outcome.bind_ok, ne_eq, not_true_eq_false, if_false]
    rw [take_strlen, memcpy_ok (by rw [hbuf0, hcl]; omega)]
    simp only [Outcome.bind_ok]
    rw [store_ok 0 (by rw [hl1, hbuf0]; omega)]
    simp only [Outcome.bind_ok]
  · simp only [List.length_set]
    rw [hl1, hbuf0]
  · show b.len + strlen s + 1 ≤ a'
    exact hroom
  · show (List.set _ _ _)[b.len + strlen s]? = some (some 0)
    rw [List.getElem?_set_self (by rw [hl1, hbuf0]; omega)]
  · show List.take (b.len + strlen s) (List.set _ _ _) = _
    rw [take_set_same, ← hcl, ht1, List.take_append_of_le_length (by omega)]
    rfl
theorem add_char_spec (b : prom_string_builder) (c : Nat) (hwf : WellFormed b) :
    ∃ b', prom_string_builder_add_char b c = .ok (0, b') ∧ WellFormed b' ∧
      b'.len = b.len + 1 ∧ content b' = content b ++ [some c] ∧
      growAllocated b.allocated (b.len + 1 + 1) = some b'.allocated ∧
      b'.init_size = b.init_size := by
  obtain ⟨hlen, hle, _⟩ := hwf
  obtain ⟨a', he, hge, hn⟩ := ensure_space_spec b 1 hlen (by omega)
  obtain ⟨hroom, hgrow⟩ := hn (by omega)
  have hbuf0 : (b.str ++ List.replicate (a' - b.allocated) (none : Cell)).length = a' := by
    rw [List.length_append, List.length_replicate, hlen]
    omega
  refine ⟨{ str := (((b.str ++ List.replicate (a' - b.allocated) none).set b.len
              (some c)).set (b.len + 1) (some 0)),
            allocated := a', len := b.len + 1, init_size := b.init_size },
    ?_, ⟨?_, ?_, ?_⟩, rfl, ?_, hgrow, rfl⟩
  · simp only [prom_string_builder_add_char]
    rw [he]
    simp only [Outcome.bind_ok, ne_eq, not_true_eq_false, if_false]
    rw [store_ok c (by rw [hbuf0]; omega)]
    simp only [Outcome.bind_ok]
    rw [store_ok 0 (by rw [List.length_set, hbuf0]; omega)]
    simp only [Outcome.bind_ok]
  · simp only [List.length_set]
    rw [hbuf0]
  · show b.len + 1 + 1 ≤ a'
    exact hroom
  · show (List.set _ _ _)[b.len + 1]? = some (some 0)
    rw [List.getElem?_set_self (by rw [List.length_set, hbuf0]; omega)]
  · show List.take (b.len + 1) (List.set _ _ _) = _
    rw [take_set_same, List.take_succ, take_set_same,
      List.getElem?_set_self (by rw [hbuf0]; omega),
      List.take_append_of_le_length (by omega)]
    rfl

theorem truncate_spec (b : prom_string_builder) (n : Nat) (hwf : WellFormed b) :
    ∃ b', prom_string_builder_truncate b n = .ok (0, b') ∧ WellFormed b' ∧
      b'.len = min n b.len ∧ content b' = (content b).take n ∧
      b'.allocated = b.allocated ∧ b'.init_size = b.init_size ∧
      (b.len ≤ n → b' = b) := by
  obtain ⟨hlen, hle, hnul⟩ := hwf
  by_cases hc : n ≥ b.len
  · refine ⟨b, ?_, ⟨hlen, hle, hnul⟩, ?_, ?_, rfl, rfl, fun _ => rfl⟩
    · rw [prom_string_builder_truncate, if_pos hc]
    · omega
    · rw [List.take_of_length_le]
      rw [content, List.length_take]
      omega
  · refine ⟨{ str := b.str.set n (some 0), allocated := b.allocated, len := n,
              init_size := b.init_size }, ?_, ⟨?_, ?_, ?_⟩, ?_, ?_, rfl, rfl, ?_⟩
    · simp only [prom_string_builder_truncate]
      rw [if_neg hc, store_ok 0 (by omega)]
      simp only [Outcome.bind_ok]
    · simp only [List.length_set]
      exact hlen
    · show n + 1 ≤ b.allocated
      omega
    · show (List.set _ _ _)[n]? = some (some 0)
      rw [List.getElem?_set_self (by omega)]
    · show n = min n b.len
      omega
    · show List.take n (List.set _ _ _) = List.take n (List.take b.len b.str)
      rw [take_set_same, List.take_take, Nat.min_eq_left (by omega)]
    · intro h
      omega

/-! ## String builder: sequences of calls -/

theorem new_eq :
    prom_string_builder_new =
      .ok (some { str := some 0 :: List.replicate 31 none, allocated := 32, len := 0,
                  init_size := 32 }) := by
  rfl

theorem clear_spec (b : prom_string_builder)
    (hinit : b.init_size = PROM_STRING_BUILDER_INIT_SIZE) :
    prom_string_builder_clear b =
      .ok (0, { str := some 0 :: List.replicate 31 none, allocated := 32, len := 0,
                init_size := 32 }) := by
  rw [prom_string_builder_clear, init_eq _ (by rw [hinit]; decide)]
  simp only [hinit]
  rfl

/-- One call on a well-formed builder with the initial size of
`prom_string_builder_new`: it returns 0 and leaves such a builder; when the
call does not add a NUL character, a content free of NUL and of indeterminate
bytes stays so. -/
theorem apply_spec (op : BuilderOp) (b : prom_string_builder) (hwf : WellFormed b)
    (hinit : b.init_size = PROM_STRING_BUILDER_INIT_SIZE) :
    ∃ b', op.apply b = .ok (0, b') ∧ WellFormed b' ∧
      b'.init_size = PROM_STRING_BUILDER_INIT_SIZE ∧
      ((∀ c, op = .add_char c → c ≠ 0) →
        (∀ x ∈ content b, ∃ k, x = some (k + 1)) →
        ∀ x ∈ content b', ∃ k, x = some (k + 1)) := by
  cases op with
  | add_str str =>
    cases str with
    | none => exact ⟨b, rfl, hwf, hinit, fun _ h => h⟩
    | some s =>
      by_cases hs : s.headD 0 = 0
      · refine ⟨b, ?_, hwf, hinit, fun _ h => h⟩
        simp only [BuilderOp.apply, prom_string_builder_add_str]
        rw [if_pos hs]
      · obtain ⟨b', h1, h2, _, h4, _, h6⟩ := add_str_spec b s hwf hs
        refine ⟨b', h1, h2, by rw [h6, hinit], ?_⟩
        intro _ hclean x hx
        rw [h4, List.mem_append] at hx
        rcases hx with hx | hx
        · exact hclean x hx
        · rw [List.mem_map] at hx
          obtain ⟨c, hc, rfl⟩ := hx
          have hc0 := List.mem_takeWhile_imp hc
          have hc1 : c ≠ 0 := by simpa using hc0
          exact ⟨c - 1, by congr 1; omega⟩
  | add_char c =>
    obtain ⟨b', h1, h2, _, h4, _, h6⟩ := add_char_spec b c hwf
    refine ⟨b', h1, h2, by rw [h6, hinit], ?_⟩
    intro hop hclean x hx
    rw [h4, List.mem_append, List.mem_singleton] at hx
    rcases hx with hx | hx
    · exact hclean x hx
    · have hc1 : c ≠ 0 := hop c rfl
      exact ⟨c - 1, by rw [hx]; congr 1; omega⟩
  | truncate n =>
    obtain ⟨b', h1, h2, _, h4, _, h6, _⟩ := truncate_spec b n hwf
    refine ⟨b', h1, h2, by rw [h6, hinit], ?_⟩
    intro _ hclean x hx
    rw [h4] at hx
    exact hclean x (List.mem_of_mem_take hx)
  | clear =>
    refine ⟨_, clear_spec b hinit, by decide, rfl, ?_⟩
    intro _ _ x hx
    simp [content] at hx

theorem runOps_spec (ops : List BuilderOp) (b : prom_string_builder) (hwf : WellFormed b)
    (hinit : b.init_size = PROM_STRING_BUILDER_INIT_SIZE) :
    ∃ b', runOps ops b = .ok b' ∧ WellFormed b' ∧
      b'.init_size = PROM_STRING_BUILDER_INIT_SIZE ∧
      ((∀ c, BuilderOp.add_char c ∈ ops → c ≠ 0) →
        (∀ x ∈ content b, ∃ k, x = some (k + 1)) →
        ∀ x ∈ content b', ∃ k, x = some (k + 1)) := by
  induction ops generalizing b with
  | nil => exact ⟨b, rfl, hwf, hinit, fun _ h => h⟩
  | cons op ops ih =>
    obtain ⟨b₁, h1, h2, h3, h4⟩ := apply_spec op b hwf hinit
    obtain ⟨b₂, k1, k2, k3, k4⟩ := ih b₁ h2 h3
    refine ⟨b₂, ?_, k2, k3, ?_⟩
    · rw [runOps, h1]
      exact k1
    · intro hops hclean
      refine k4 (fun c hc => hops c (List.mem_cons_of_mem _ hc)) (h4 ?_ hclean)
      intro c hc
      exact hops c (hc ▸ List.mem_cons_self _ _)

theorem fromNew_spec (ops : List BuilderOp) :
    ∃ b, fromNew ops = .ok b ∧ WellFormed b ∧
      b.init_size = PROM_STRING_BUILDER_INIT_SIZE ∧
      ((∀ c, BuilderOp.add_char c ∈ ops → c ≠ 0) →
        ∀ x ∈ content b, ∃ k, x = some (k + 1)) := by
  obtain ⟨b, h1, h2, h3, h4⟩ := runOps_spec ops
    { str := some 0 :: List.replicate 31 none, allocated := 32, len := 0, init_size := 32 }
    (by decide) rfl
  refine ⟨b, ?_, h2, h3, fun hops => h4 hops ?_⟩
  · rw [fromNew, new_eq]
    exact h1
  · intro x hx
    simp [content] at hx

/-- A block whose first `n` bytes are determinate and not NUL and whose byte
`n` is NUL has C-string length `n`. -/
theorem Block.strlen_eq (blk : Block) (n : Nat)
    (hclean : ∀ x ∈ blk.take n, ∃ k, x = some (k + 1))
    (hnul : blk[n]? = some (some 0)) : Block.strlen blk = some n := by
  induction n generalizing blk with
  | zero =>
    cases blk with
    | nil => simp at hnul
    | cons x rest =>
      simp only [List.getElem?_cons_zero, Option.some.injEq] at hnul
      subst hnul
      rfl
  | succ n ih =>
    cases blk with
    | nil => simp at hnul
    | cons x rest =>
      obtain ⟨k, rfl⟩ := hclean x (by simp)
      rw [List.getElem?_cons_succ] at hnul
      have := ih rest (fun y hy => hclean y (by simp [hy])) hnul
      simp [Block.strlen, this]

theorem content_length (b : prom_string_builder) (hwf : WellFormed b) :
    (content b).length = b.len := by
  obtain ⟨hlen, hle, _⟩ := hwf
  rw [content, List.length_take]
  omega

theorem strlen_of_head_nul {s : List Nat} (h : s.headD 0 = 0) :
    s.takeWhile (fun c => c ≠ 0) = [] ∧ strlen s = 0 := by
  have h1 : s.takeWhile (fun c => c ≠ 0) = [] := by
    cases s with
    | nil => rfl
    | cons x xs =>
      simp only [List.headD_cons] at h
      simp [List.takeWhile, h]
  exact ⟨h1, by rw [strlen, h1]; rfl⟩

/-- The call `add_str` on a well-formed builder, for any argument that is not
NULL: it returns 0, appends the bytes found before the first NUL and closes
them with a NUL; `allocated` is what the doubling loop gives for the new
length. -/
theorem add_str_spec_all (b : prom_string_builder) (s : List Nat) (hwf : WellFormed b) :
    ∃ b', prom_string_builder_add_str b (some s) = .ok (0, b') ∧ WellFormed b' ∧
      b'.len = b.len + strlen s ∧
      content b' = content b ++ (s.takeWhile (fun c => c ≠ 0)).map some ∧
      growAllocated b.allocated (b.len + strlen s + 1) = some b'.allocated ∧
      b'.init_size = b.init_size := by
  by_cases hs : s.headD 0 = 0
  · obtain ⟨h1, h2⟩ := strlen_of_head_nul hs
    refine ⟨b, ?_, hwf, by rw [h2]; rfl, by rw [h1]; simp, ?_, rfl⟩
    · simp only [prom_string_builder_add_str]
      rw [if_pos hs]
    · rw [h2]
      exact growAllocated_of_le hwf.2.1
  · exact add_str_spec b s hwf hs


/-! ## String builder: the claims -/

/-- C11: for every finite sequence of `add_str`, `add_char`, `truncate` and
`clear` calls made on the builder returned by `prom_string_builder_new`
(allocation succeeding, no `size_t` wrap-around) all the calls complete, none
writes outside the block `str` points to, and the builder reached satisfies
`len + 1 <= allocated` and `str[len] = NUL`, `str` being a block of
`allocated` bytes; any further call again completes with return value 0, and
the bytes it may have written, the closing NUL at index `len` included, are at
indexes below `allocated`. -/
theorem builder_well_formed (ops : List BuilderOp) :
    ∃ b, fromNew ops = .ok b ∧
      b.str.length = b.allocated ∧ b.len + 1 ≤ b.allocated ∧
      b.str[b.len]? = some (some 0) ∧
      ∀ op : BuilderOp, ∃ b', op.apply b = .ok (0, b') ∧
        b'.str.length = b'.allocated ∧ b'.len < b'.allocated ∧
        b'.str[b'.len]? = some (some 0) := by
  obtain ⟨b, h1, h2, h3, _⟩ := fromNew_spec ops
  refine ⟨b, h1, h2.1, h2.2.1, h2.2.2, ?_⟩
  intro op
  obtain ⟨b', k1, k2, _⟩ := apply_spec op b h2 h3
  exact ⟨b', k1, k2.1, k2.2.1, k2.2.2⟩

/-- C12: on a well-formed builder with content `c`, `add_str` with a
string `s` that is not NULL (bytes without NUL, the terminating NUL following
them; non-empty or not) returns 0; afterwards the content is `c` followed by the bytes of `s`, `len`
has grown by `strlen(s)`, which is the number of bytes of `s`, and `str[len]`
is NUL.  With NULL or an empty string (an argument whose first byte is NUL)
the call returns 0 and leaves the builder as it was. -/
theorem add_str_appends (b : prom_string_builder) (s t : List Nat)
    (hwf : WellFormed b) (h0 : 0 ∉ s) :
    (∃ b', prom_string_builder_add_str b (some s) = .ok (0, b') ∧
      content b' = content b ++ s.map some ∧
      b'.len = b.len + strlen s ∧ strlen s = s.length ∧
      b'.str[b'.len]? = some (some 0) ∧ b'.len + 1 ≤ b'.allocated) ∧
    prom_string_builder_add_str b none = .ok (0, b) ∧
    prom_string_builder_add_str b (some []) = .ok (0, b) ∧
    prom_string_builder_add_str b (some (0 :: t)) = .ok (0, b) := by
  refine ⟨?_, rfl, rfl, rfl⟩
  obtain ⟨b', h1, h2, h3, h4, _⟩ := add_str_spec_all b s hwf
  obtain ⟨k1, k2⟩ := strlen_of_not_mem h0
  rw [k1] at h4
  exact ⟨b', h1, h4, h3, k2, h2.2.2, h2.2.1⟩

/-- Witness of C12: "hi" appended to the builder that holds "a". -/
theorem add_str_appends_witness :
    WellFormed { str := [some 97, some 0, none, none], allocated := 4, len := 1,
                 init_size := 32 } ∧
    0 ∉ ([104, 105] : List Nat) ∧
    ∃ b', prom_string_builder_add_str
        { str := [some 97, some 0, none, none], allocated := 4, len := 1, init_size := 32 }
        (some [104, 105]) = .ok (0, b') ∧
      content b' = [some 97, some 104, some 105] ∧ b'.len = 3 :=
  ⟨by decide, by decide,
    match (add_str_appends
      { str := [some 97, some 0, none, none], allocated := 4, len := 1, init_size := 32 }
      [104, 105] [] (by decide) (by decide)).1 with
    | ⟨b', h1, h2, h3, _⟩ => ⟨b', h1, h2, h3⟩⟩

/-- C13, as amended: for every builder reached from
`prom_string_builder_new` by a sequence of `add_str`, `add_char`, `truncate`
and `clear` calls in which no `add_char` is given the NUL character, `len` is
the C-string length of `str` (the index of its first NUL byte):
`prom_string_builder_len(self) = strlen(prom_string_builder_str(self))`. -/
theorem len_is_strlen (ops : List BuilderOp)
    (hops : ∀ c, BuilderOp.add_char c ∈ ops → c ≠ 0) :
    ∃ b, fromNew ops = .ok b ∧
      Block.strlen (prom_string_builder_str b) = some (prom_string_builder_len b) := by
  obtain ⟨b, h1, h2, _, h4⟩ := fromNew_spec ops
  exact ⟨b, h1, Block.strlen_eq b.str b.len (h4 hops) h2.2.2⟩

/-- Witness of C13 as amended: "hi", then "!", then a cut to one byte. -/
theorem len_is_strlen_witness :
    (∀ c, BuilderOp.add_char c ∈
        [BuilderOp.add_str (some [104, 105]), .add_char 33, .truncate 1] → c ≠ 0) ∧
    ∃ b, fromNew [BuilderOp.add_str (some [104, 105]), .add_char 33, .truncate 1] = .ok b ∧
      Block.strlen (prom_string_builder_str b) = some (prom_string_builder_len b) :=
  ⟨by simp, len_is_strlen [.add_str (some [104, 105]), .add_char 33, .truncate 1] (by simp)⟩

/-- C13 as stated fails: after `add_char` with the NUL character on a new
builder `len` is 1 while the first NUL byte of `str` is at index 0. -/
theorem len_is_strlen_counterexample :
    ∃ b, fromNew [.add_char 0] = .ok b ∧ prom_string_builder_len b = 1 ∧
      Block.strlen (prom_string_builder_str b) = some 0 ∧
      Block.strlen (prom_string_builder_str b) ≠ some (prom_string_builder_len b) :=
  ⟨{ str := some 0 :: some 0 :: List.replicate 30 none, allocated := 32, len := 1,
     init_size := 32 }, by decide, rfl, rfl, by decide⟩

/-- C14: on a well-formed builder, `add_str(a)` followed by `add_str(b)`
leaves the same content, the same `len` and the same `allocated` as the single
call `add_str(a ++ b)`, for every string `a` (bytes without NUL) and every
`b`; the three calls return 0. -/
theorem add_str_concat (self : prom_string_builder) (a b : List Nat)
    (hwf : WellFormed self) (ha : 0 ∉ a) :
    ∃ s₁ s₂ s₁₂,
      prom_string_builder_add_str self (some a) = .ok (0, s₁) ∧
      prom_string_builder_add_str s₁ (some b) = .ok (0, s₂) ∧
      prom_string_builder_add_str self (some (a ++ b)) = .ok (0, s₁₂) ∧
      content s₂ = content s₁₂ ∧ s₂.len = s₁₂.len ∧ s₂.allocated = s₁₂.allocated ∧
      s₂.str[s₂.len]? = some (some 0) ∧ s₁₂.str[s₁₂.len]? = some (some 0) := by
  obtain ⟨s₁, h1, w1, l1, c1, g1, _⟩ := add_str_spec_all self a hwf
  obtain ⟨s₂, h2, w2, l2, c2, g2, _⟩ := add_str_spec_all s₁ b w1
  obtain ⟨s₁₂, h3, w3, l3, c3, g3, _⟩ := add_str_spec_all self (a ++ b) hwf
  have htw : (a ++ b).takeWhile (fun c => c ≠ 0) = a ++ b.takeWhile (fun c => c ≠ 0) := by
    rw [List.takeWhile_append_of_pos]
    intro x hx
    have : x ≠ 0 := fun h0 => ha (h0 ▸ hx)
    simpa using this
  have hlen : strlen (a ++ b) = strlen a + strlen b := by
    rw [strlen, htw, List.length_append, (strlen_of_not_mem ha).2]
    rfl
  refine ⟨s₁, s₂, s₁₂, h1, h2, h3, ?_, ?_, ?_, w2.2.2, w3.2.2⟩
  · rw [c2, c1, c3, htw, (strlen_of_not_mem ha).1, List.map_append, List.append_assoc]
  · rw [l2, l1, l3, hlen, Nat.add_assoc]
  · have hpos : 0 < self.allocated := by
      have := hwf.2.1
      omega
    have := growAllocated_twice self.allocated (self.len + strlen a + 1)
      (s₁.len + strlen b + 1) s₁.allocated hpos (by rw [l1]; omega) g1
    rw [g2, l1, Nat.add_assoc self.len, ← hlen, g3] at this
    exact Option.some.inj this

/-- Witness of C14: "ab" and "cd" appended to the builder that holds "a" in a
block of four bytes, so that the block has to grow. -/
theorem add_str_concat_witness :
    WellFormed { str := [some 97, some 0, none, none], allocated := 4, len := 1,
                 init_size := 32 } ∧
    0 ∉ ([97, 98] : List Nat) ∧
    ∃ s₁ s₂ s₁₂,
      prom_string_builder_add_str
        { str := [some 97, some 0, none, none], allocated := 4, len := 1, init_size := 32 }
        (some [97, 98]) = .ok (0, s₁) ∧
      prom_string_builder_add_str s₁ (some [99, 100]) = .ok (0, s₂) ∧
      prom_string_builder_add_str
        { str := [some 97, some 0, none, none], allocated := 4, len := 1, init_size := 32 }
        (some [97, 98, 99, 100]) = .ok (0, s₁₂) ∧
      content s₂ = content s₁₂ ∧ s₂.len = s₁₂.len ∧ s₂.allocated = s₁₂.allocated :=
  ⟨by decide, by decide,
    match add_str_concat
      { str := [some 97, some 0, none, none], allocated := 4, len := 1, init_size := 32 }
      [97, 98] [99, 100] (by decide) (by decide) with
    | ⟨s₁, s₂, s₁₂, h1, h2, h3, h4, h5, h6, _⟩ => ⟨s₁, s₂, s₁₂, h1, h2, h3, h4, h5, h6⟩⟩

/-- C15: `prom_string_builder_new` returns a builder that holds the empty
string, with `len = 0` and `allocated = PROM_STRING_BUILDER_INIT_SIZE = 32`;
and on every builder reached from it by `add_str`, `add_char`, `truncate` and
`clear` calls, `prom_string_builder_clear` returns 0 and gives exactly that
builder again (empty string, `len = 0`, `allocated = init_size = 32`),
whatever the content and the allocated size were. -/
theorem new_and_clear (ops : List BuilderOp) :
    PROM_STRING_BUILDER_INIT_SIZE = 32 ∧
    ∃ b₀, prom_string_builder_new = .ok (some b₀) ∧
      b₀.len = 0 ∧ b₀.allocated = PROM_STRING_BUILDER_INIT_SIZE ∧
      b₀.init_size = PROM_STRING_BUILDER_INIT_SIZE ∧
      content b₀ = [] ∧ Block.strlen b₀.str = some 0 ∧ b₀.str.length = 32 ∧
      ∃ b, fromNew ops = .ok b ∧ prom_string_builder_clear b = .ok (0, b₀) := by
  obtain ⟨b, h1, _, h3, _⟩ := fromNew_spec ops
  exact ⟨rfl, _, new_eq, rfl, rfl, rfl, rfl, rfl, by decide, b, h1, clear_spec b h3⟩

/-- C16: on a well-formed builder with content `c`, `truncate(n)` returns 0,
leaves `allocated` unchanged, and leaves as content the first `min(n, len)`
bytes of `c`, with `len = min(n, old len)` and `str[len] = NUL`; it changes
nothing when `n >= len`; a second `truncate(n)` changes nothing; and
`add_str(s)` followed by `truncate(old len)` gives back the original content
and `len`. -/
theorem truncate_keeps_initial_segment (b : prom_string_builder) (n : Nat)
    (s : Option (List Nat)) (hwf : WellFormed b) :
    (∃ b₁, prom_string_builder_truncate b n = .ok (0, b₁) ∧
      b₁.allocated = b.allocated ∧
      content b₁ = (content b).take (min n b.len) ∧ b₁.len = min n b.len ∧
      b₁.str[b₁.len]? = some (some 0) ∧
      (b.len ≤ n → b₁ = b) ∧
      prom_string_builder_truncate b₁ n = .ok (0, b₁)) ∧
    (∃ b₂ b₃, prom_string_builder_add_str b s = .ok (0, b₂) ∧
      prom_string_builder_truncate b₂ b.len = .ok (0, b₃) ∧
      content b₃ = content b ∧ b₃.len = b.len) := by
  constructor
  · obtain ⟨b₁, h1, w1, l1, c1, a1, _, e1⟩ := truncate_spec b n hwf
    obtain ⟨b₁', h2, _, _, _, _, _, e2⟩ := truncate_spec b₁ n w1
    refine ⟨b₁, h1, a1, ?_, l1, w1.2.2, e1, ?_⟩
    · have hfull : (content b).take b.len = content b :=
        List.take_of_length_le (by rw [content_length b hwf])
      rw [c1, ← List.take_take, hfull]
    · rw [h2, e2 (by rw [l1]; exact Nat.min_le_left _ _)]
  · have hadd : ∃ b₂, prom_string_builder_add_str b s = .ok (0, b₂) ∧ WellFormed b₂ ∧
        b.len ≤ b₂.len ∧ ∃ tail, content b₂ = content b ++ tail := by
      cases s with
      | none => exact ⟨b, rfl, hwf, le_refl _, [], by simp⟩
      | some s =>
        obtain ⟨b₂, h1, w1, l1, c1, _⟩ := add_str_spec_all b s hwf
        exact ⟨b₂, h1, w1, by omega, _, c1⟩
    obtain ⟨b₂, h1, w1, l1, tail, c1⟩ := hadd
    obtain ⟨b₃, h2, _, l2, c2, _⟩ := truncate_spec b₂ b.len w1
    refine ⟨b₂, b₃, h1, h2, ?_, ?_⟩
    · rw [c2, c1, List.take_left' (content_length b hwf)]
    · rw [l2]
      exact Nat.min_eq_left l1

/-- Witness of C16: the builder that holds "abc" in a block of four bytes, cut
to two bytes, and "de" appended to it and cut off again. -/
theorem truncate_keeps_initial_segment_witness :
    WellFormed { str := [some 97, some 98, some 99, some 0], allocated := 4, len := 3,
                 init_size := 32 } ∧
    (∃ b₁, prom_string_builder_truncate
        { str := [some 97, some 98, some 99, some 0], allocated := 4, len := 3,
          init_size := 32 } 2 = .ok (0, b₁) ∧
      content b₁ = [some 97, some 98] ∧ b₁.len = 2) ∧
    (∃ b₂ b₃, prom_string_builder_add_str
        { str := [some 97, some 98, some 99, some 0], allocated := 4, len := 3,
          init_size := 32 } (some [100, 101]) = .ok (0, b₂) ∧
      prom_string_builder_truncate b₂ 3 = .ok (0, b₃) ∧
      content b₃ = [some 97, some 98, some 99] ∧ b₃.len = 3) :=
  ⟨by decide,
    match (truncate_keeps_initial_segment
      { str := [some 97, some 98, some 99, some 0], allocated := 4, len := 3,
        init_size := 32 } 2 (some [100, 101]) (by decide)).1 with
    | ⟨b₁, h1, _, h3, h4, _⟩ => ⟨b₁, h1, h3, h4⟩,
    match (truncate_keeps_initial_segment
      { str := [some 97, some 98, some 99, some 0], allocated := 4, len := 3,
        init_size := 32 } 2 (some [100, 101]) (by decide)).2 with
    | ⟨b₂, b₃, h1, h2, h3, h4⟩ => ⟨b₂, b₃, h1, h2, h3, h4⟩⟩

end Tp1
